import Mathlib

/-!
Shallow embedding of `src/projected_gradient.py` (class `ProjectedGradient`,
method `perturb`) from the fast-wasserstein-adversarial repository.

Real scalars are modelled as rationals.  A flattened tensor for one batch
element is a `List ℚ`; a batch is a list of such vectors.  Code that lives
outside `src/` (the `WassersteinAttack` base class, `projection.py`,
`utils.py`, the classification model and loss) is treated as an external
oracle: `perturb` receives those functions as parameters and the embedding
records every call it makes to them, together with the exact arguments, in
an event trace.  Python's `UnboundLocalError` and `ZeroDivisionError` are
modelled by an error field that, once set, freezes the state (the raised
exception aborts the remainder of the call).
-/

namespace FastWA

/-- One batch element of a tensor, flattened to a list of rational entries. -/
abbrev Vec := List ℚ

/-- A batch of flattened tensors, one `Vec` per batch element. -/
abbrev Image := List Vec

/-- A batch of flattened couplings (transport plans), one per batch element. -/
abbrev Coupling := List Vec

/-- Sum of all entries of one batch element: `X[b].sum()` over channels,
height and width. -/
def sumQ (v : Vec) : ℚ := v.foldr (fun a b => a + b) 0

/-- Line 60: `normalization = X.sum(dim=(1, 2, 3), keepdim=True)` — the
per-batch-element total mass. -/
def normsOf (X : Image) : List ℚ := X.map sumQ

/-- The per-batch-element budget `self.eps * normalization.squeeze()` handed
to the projections at lines 89, 98 and 139. -/
def epsArgOf (eps : ℚ) (norm : List ℚ) : List ℚ := norm.map (fun n => eps * n)

/-- Modelled from the spec: `tensor_norm(·, p='inf')` lives in `utils.py`,
which is not under `src/`; the spec says the gradient is normalized "by its
infinity-norm per batch element", so the infinity norm of one batch element
is the maximum absolute entry. -/
def infNormQ (v : Vec) : ℚ := v.foldr (fun x a => max |x| a) 0

/-- Line 77, one batch element:
`pi.grad /= (tensor_norm(pi.grad, p='inf').view(batch_size,1,1,1) + 1e-8)`. -/
def gradNormalize (g : Vec) : Vec := g.map (fun x => x / (infNormQ g + 1/100000000))

/-- Lines 77-78: normalize the gradient per batch element, then
`pi += self.lr * pi.grad`. -/
def piStep (lr : ℚ) (p g : Coupling) : Coupling :=
  List.zipWith (fun pv gv => List.zipWith (fun a b => a + lr * b) pv (gradNormalize gv)) p g

/-- `x.clamp(min=lo, max=hi)` on one entry. -/
def clampQ (lo hi x : ℚ) : ℚ := min (max x lo) hi

/-- `img.clamp(min=lo, max=hi)` on a whole batch. -/
def clampImage (lo hi : ℚ) (img : Image) : Image := img.map (List.map (clampQ lo hi))

/-- Elementwise `P / normalization`, dividing every entry of batch element
`b` by `normalization[b]` (the arguments of lines 119-121 and 128-130). -/
def divNorm (P : Image) (norm : List ℚ) : Image :=
  List.zipWith (fun v n => v.map (fun a => a / n)) P norm

/-- Python runtime errors that `perturb` can raise. -/
inductive PyErr where
  | zeroDivision
  | unboundLocal
deriving DecidableEq

/-- Observable actions of `perturb`, recorded with their exact arguments:
calls into the external model, calls into the two projections of
`projection.py`, and the diagnostic constraint checks of the base class. -/
inductive Event where
  | predictCall (img : Image)
  | dualProjCall (piArg : Coupling) (epsArg : List ℚ)
  | capacityProjCall (piArg : Coupling) (epsArg : List ℚ)
  | checkNonneg (piArg : Coupling) (tol : ℚ)
  | checkMarginal (piArg : Coupling) (xArg : Image) (tol : ℚ)
  | checkCost (piArg : Coupling) (tol : ℚ)
  | checkHypercube (img : Image) (tol : Option ℚ)
deriving DecidableEq

/-- The configuration recognized by `ProjectedGradient.__init__`
(lines 22-53); solver-internal knobs that are only forwarded to the external
projections (`dual_max_iter`, `grad_tol`, `int_tol`) are folded into the
projection oracles. -/
structure Config where
  eps : ℚ
  kernelSize : ℤ
  lr : ℚ
  nbIter : ℕ
  clipMin : ℚ
  clipMax : ℚ
  clipping : Bool
  postprocess : Bool
  capacityProjMod : ℤ
deriving DecidableEq

/-- External collaborators of `perturb`, none of whose code is under `src/`:
`initialize_coupling` and `coupling2adversarial` from the base class,
the model/loss/autograd pipeline producing `pi.grad` (indexed by the
iteration number), and the two projections from `projection.py` (their
fixed extra arguments `cost`, `dual_max_iter`, `grad_tol`, `int_tol`,
`transpose_idx`, `detranspose_idx` are folded in). -/
structure Oracles where
  initCoupling : Image → Coupling
  decode : Coupling → Image → Image
  grad : ℕ → Coupling → Image → Coupling
  dualProj : Coupling → Image → List ℚ → Coupling × ℕ
  capacityProj : Coupling → Image → List ℚ → Coupling

/-- The mutable state of one `perturb` call: the caller's image tensor `X`,
the coupling `pi`, the local variable `num_iter` of the loop body (unbound
until first assigned), the instance counters `self.num_iter` and
`self.func_calls`, the event trace, and a pending raised exception. -/
structure LoopState where
  X : Image
  pi : Coupling
  lastNumIter : Option ℕ
  numIter : ℕ
  funcCalls : ℕ
  trace : List Event
  err : Option PyErr
deriving DecidableEq

/-- Record one observable event. -/
def addEvent (s : LoopState) (e : Event) : LoopState := { s with trace := s.trace ++ [e] }

/-- The three diagnostic constraint checks run back to back
(lines 119-121, 128-130 and 147-149): they only record events — the base
class checks are reporting-only — and receive `pi / normalization` and
`X / normalization`. -/
def checksAt (s : LoopState) (norm : List ℚ) (tN tM tC : ℚ) : LoopState :=
  addEvent (addEvent (addEvent s (Event.checkNonneg (divNorm s.pi norm) tN))
      (Event.checkMarginal (divNorm s.pi norm) (divNorm s.X norm) tM))
    (Event.checkCost (divNorm s.pi norm) tC)

/-- Lines 109-121: store the projected coupling, assign the local
`num_iter`, accumulate `self.num_iter += num_iter` and
`self.func_calls += 1`, then run the in-loop checks with tolerances
`1e-6`, `1e-6`, `1e-3`. -/
def iterStats (s : LoopState) (norm : List ℚ) (p2 : Coupling) (n : ℕ) : LoopState :=
  checksAt { s with pi := p2, lastNumIter := some n,
                    numIter := s.numIter + n, funcCalls := s.funcCalls + 1 }
    norm (1/1000000) (1/1000000) (1/1000)

/-- Outcome of the projection dispatch at lines 85-102. -/
inductive ProjResult where
  | dual (p : Coupling) (n : ℕ)
  | capacity (p : Coupling)
  | skip
  | divZero

/-- Lines 85-102: `if self.capacity_proj_mod == -1:` call `dual_projection`;
`elif (t + 1) % self.capacity_proj_mod == 0:` call
`dual_capacity_constrained_projection` (evaluating the modulus with a zero
divisor raises `ZeroDivisionError`); otherwise no branch is taken. -/
def projBranch (cfg : Config) (o : Oracles) (t : ℕ) (X : Image) (eArg : List ℚ)
    (p1 : Coupling) : ProjResult :=
  if cfg.capacityProjMod = -1 then
    ProjResult.dual (o.dualProj p1 X eArg).1 (o.dualProj p1 X eArg).2
  else if cfg.capacityProjMod = 0 then ProjResult.divZero
  else if ((t : ℤ) + 1) % cfg.capacityProjMod = 0 then
    ProjResult.capacity (o.capacityProj p1 X eArg)
  else ProjResult.skip

/-- Lines 85-121, after the gradient step produced `p1`: dispatch the
projection; `dual_projection` also reports its iteration count, the
capacity path reports the constant `3000` (line 102); if neither branch ran,
line 109 reads the local `num_iter`, which raises `UnboundLocalError` when
it was never assigned and otherwise reuses its stale value. -/
def iterCore (cfg : Config) (o : Oracles) (norm : List ℚ) (t : ℕ) (s : LoopState)
    (p1 : Coupling) : LoopState :=
  match projBranch cfg o t s.X (epsArgOf cfg.eps norm) p1 with
  | ProjResult.divZero => { s with pi := p1, err := some PyErr.zeroDivision }
  | ProjResult.dual p2 n =>
      iterStats (addEvent s (Event.dualProjCall p1 (epsArgOf cfg.eps norm))) norm p2 n
  | ProjResult.capacity p2 =>
      iterStats (addEvent s (Event.capacityProjCall p1 (epsArgOf cfg.eps norm))) norm p2 3000
  | ProjResult.skip =>
      match s.lastNumIter with
      | none => { s with pi := p1, err := some PyErr.unboundLocal }
      | some n => iterStats s norm p1 n

/-- One outer iteration (lines 62-123): if an exception is pending nothing
runs; otherwise decode the coupling, score the clamped adversarial image
(line 64: the argument of `predict` is always clamped to
`[clip_min, clip_max]`), take the normalized gradient-ascent step of
lines 77-78, and continue with the projection dispatch. -/
def loopIter (cfg : Config) (o : Oracles) (norm : List ℚ) (t : ℕ) (s : LoopState) :
    LoopState :=
  match s.err with
  | some _ => s
  | none =>
      iterCore cfg o norm t
        (addEvent s (Event.predictCall (clampImage cfg.clipMin cfg.clipMax (o.decode s.pi s.X))))
        (piStep cfg.lr s.pi (o.grad t s.pi s.X))

/-- `for t in range(...)`: run iterations `t, t+1, …` for `k` steps. -/
def loopFrom (cfg : Config) (o : Oracles) (norm : List ℚ) : ℕ → ℕ → LoopState → LoopState
  | _, 0, s => s
  | t, k + 1, s => loopFrom cfg o norm (t + 1) k (loopIter cfg o norm t s)

/-- Lines 151-154: the returned image is clamped to `[clip_min, clip_max]`
exactly when `self.clipping` is set. -/
def postOutput (cfg : Config) (img : Image) : Image :=
  if cfg.clipping then clampImage cfg.clipMin cfg.clipMax img else img

/-- Lines 132-154: the optional post-processing pass — one extra
`dual_capacity_constrained_projection`, a `check_hypercube` on the decode of
the new coupling with tolerance `eps * 5e-2`, and the three checks with
tolerances `1e-6`, `1e-6`, `eps * 1e-3` — followed by the return. -/
def finalPost (cfg : Config) (o : Oracles) (norm : List ℚ) (s : LoopState) :
    LoopState × Option Image :=
  if cfg.postprocess then
    (checksAt
        { addEvent (addEvent s (Event.capacityProjCall s.pi (epsArgOf cfg.eps norm)))
            (Event.checkHypercube
              (o.decode (o.capacityProj s.pi s.X (epsArgOf cfg.eps norm)) s.X)
              (some (cfg.eps * (5/100))))
          with pi := o.capacityProj s.pi s.X (epsArgOf cfg.eps norm) }
        norm (1/1000000) (1/1000000) (cfg.eps * (1/1000)),
      some (postOutput cfg (o.decode (o.capacityProj s.pi s.X (epsArgOf cfg.eps norm)) s.X)))
  else (s, some (postOutput cfg (o.decode s.pi s.X)))

/-- Lines 125-154: after the loop (when no exception aborted it), decode the
coupling and run `check_hypercube` on the *unclamped* decode, run the three
checks with tolerances `1e-5`, `1e-5`, `eps * 1e-3`, then the optional
post-processing pass and the return. -/
def finalPhase (cfg : Config) (o : Oracles) (norm : List ℚ) (s : LoopState) :
    LoopState × Option Image :=
  match s.err with
  | some _ => (s, none)
  | none =>
      finalPost cfg o norm
        (checksAt (addEvent s (Event.checkHypercube (o.decode s.pi s.X) none)) norm
          (1/100000) (1/100000) (cfg.eps * (1/1000)))

/-- Lines 55-60: the state at entry of the loop; `initialize_coupling` is a
base-class oracle, the counters start at the constructor's zero values. -/
def initState (o : Oracles) (X : Image) : LoopState :=
  { X := X, pi := o.initCoupling X, lastNumIter := none,
    numIter := 0, funcCalls := 0, trace := [], err := none }

/-- The state after the whole `for` loop of lines 62-123. -/
def loopFinal (cfg : Config) (o : Oracles) (X : Image) : LoopState :=
  loopFrom cfg o (normsOf X) 0 cfg.nbIter (initState o X)

/-- `ProjectedGradient.perturb(X, y)` (lines 55-154); the label `y` only
feeds the loss and is folded into the gradient oracle.  Returns the final
state (`none` result means the call raised). -/
def perturb (cfg : Config) (o : Oracles) (X : Image) : LoopState × Option Image :=
  finalPhase cfg o (normsOf X) (loopFinal cfg o X)

/-- The coupling whose decode `perturb` returns: the loop-final coupling,
run through one extra capacity-constrained projection when `postprocess`
is set (lines 132-142). -/
def finalPi (cfg : Config) (o : Oracles) (X : Image) : Coupling :=
  if cfg.postprocess then
    o.capacityProj (loopFinal cfg o X).pi (loopFinal cfg o X).X
      (epsArgOf cfg.eps (normsOf X))
  else (loopFinal cfg o X).pi

/-- Configuration errors rejected at initialization. -/
inductive ConfigError where
  | negativeEps
  | badKernelSize
deriving DecidableEq

/-- Modelled from the spec: the base-class constructor
`WassersteinAttack.__init__` (`wasserstein_attack.py`) is not under `src/`;
per the spec, "malformed configuration (negative budget, non-positive
kernel size) [is] rejected at initialization". -/
def wassersteinAttackInit (cfg : Config) : Except ConfigError Config :=
  if cfg.eps < 0 then Except.error ConfigError.negativeEps
  else if cfg.kernelSize ≤ 0 then Except.error ConfigError.badKernelSize
  else Except.ok cfg

/-- `ProjectedGradient.__init__` (lines 22-53): call the base constructor,
then store the subclass fields; it performs no further validation of its
own. -/
def projectedGradientInit (cfg : Config) : Except ConfigError Config :=
  wassersteinAttackInit cfg

/-- Whether initialization rejected the configuration. -/
def isRejected : Except ConfigError Config → Bool
  | Except.error _ => true
  | Except.ok _ => false

/-- Projection-call events. -/
def isProjEvent : Event → Bool
  | Event.dualProjCall _ _ => true
  | Event.capacityProjCall _ _ => true
  | _ => false

/-- The projection calls recorded in a trace. -/
def projEvents (tr : List Event) : List Event := tr.filter isProjEvent

/-- The three-fold constraint-check events. -/
def isCheckEvent : Event → Bool
  | Event.checkNonneg _ _ => true
  | Event.checkMarginal _ _ _ => true
  | Event.checkCost _ _ => true
  | _ => false

/-- The constraint checks recorded in a trace. -/
def checkEvents (tr : List Event) : List Event := tr.filter isCheckEvent

/-! ### Concrete fixtures for witnesses and counterexamples -/

/-- Trivial external collaborators: the coupling decodes to itself, the
gradient oracle returns an identically zero gradient, `dual_projection`
returns its input and reports 7 inner iterations. -/
def oId : Oracles where
  initCoupling := fun X => X
  decode := fun p _ => p
  grad := fun _ p _ => p.map (fun v => v.map (fun _ => 0))
  dualProj := fun p _ _ => (p, 7)
  capacityProj := fun p _ _ => p

/-- A one-element batch with a single pixel of mass 1. -/
def X1 : Image := [[1]]

/-- A default configuration running the `dual_projection` path. -/
def cfgDual : Config :=
  { eps := 1/2, kernelSize := 5, lr := 1/10, nbIter := 1, clipMin := 0, clipMax := 1,
    clipping := false, postprocess := false, capacityProjMod := -1 }

/-- The same configuration with the capacity path enabled every 2 steps. -/
def cfgCap2 : Config := { cfgDual with capacityProjMod := 2 }

/-- The same configuration with `capacity_proj_mod = 0`. -/
def cfgCap0 : Config := { cfgDual with capacityProjMod := 0 }

/-- The loop-entry state for the fixture. -/
def sInit : LoopState := initState oId X1

/-- A configuration with a negative budget. -/
def cfgBad : Config := { cfgDual with eps := -1 }

/-- What every recorded event of a `perturb` run on source image `X` looks
like: `predict` always receives a decode clamped to `[clip_min, clip_max]`;
both projections always receive the budget `eps * normalization`; the three
constraint checks always receive couplings divided by `normalization`, the
marginal check compares against `X / normalization`; `check_hypercube`
always receives an unclamped decode. -/
def TraceOK (cfg : Config) (o : Oracles) (X : Image) : Event → Prop
  | Event.predictCall img => ∃ p, img = clampImage cfg.clipMin cfg.clipMax (o.decode p X)
  | Event.dualProjCall _ a => a = epsArgOf cfg.eps (normsOf X)
  | Event.capacityProjCall _ a => a = epsArgOf cfg.eps (normsOf X)
  | Event.checkNonneg pa _ => ∃ p, pa = divNorm p (normsOf X)
  | Event.checkMarginal pa xa _ =>
      (∃ p, pa = divNorm p (normsOf X)) ∧ xa = divNorm X (normsOf X)
  | Event.checkCost pa _ => ∃ p, pa = divNorm p (normsOf X)
  | Event.checkHypercube img _ => ∃ p, img = o.decode p X

/-! ### Field-projection lemmas -/

@[simp] lemma addEvent_X (s : LoopState) (e : Event) : (addEvent s e).X = s.X := rfl

@[simp] lemma addEvent_pi (s : LoopState) (e : Event) : (addEvent s e).pi = s.pi := rfl

@[simp] lemma addEvent_err (s : LoopState) (e : Event) : (addEvent s e).err = s.err := rfl

@[simp] lemma addEvent_lastNumIter (s : LoopState) (e : Event) :
    (addEvent s e).lastNumIter = s.lastNumIter := rfl

@[simp] lemma addEvent_numIter (s : LoopState) (e : Event) :
    (addEvent s e).numIter = s.numIter := rfl

@[simp] lemma addEvent_funcCalls (s : LoopState) (e : Event) :
    (addEvent s e).funcCalls = s.funcCalls := rfl

@[simp] lemma addEvent_trace (s : LoopState) (e : Event) :
    (addEvent s e).trace = s.trace ++ [e] := rfl

@[simp] lemma checksAt_X (s : LoopState) (norm : List ℚ) (a b c : ℚ) :
    (checksAt s norm a b c).X = s.X := rfl

@[simp] lemma checksAt_pi (s : LoopState) (norm : List ℚ) (a b c : ℚ) :
    (checksAt s norm a b c).pi = s.pi := rfl

@[simp] lemma checksAt_err (s : LoopState) (norm : List ℚ) (a b c : ℚ) :
    (checksAt s norm a b c).err = s.err := rfl

@[simp] lemma checksAt_lastNumIter (s : LoopState) (norm : List ℚ) (a b c : ℚ) :
    (checksAt s norm a b c).lastNumIter = s.lastNumIter := rfl

@[simp] lemma checksAt_numIter (s : LoopState) (norm : List ℚ) (a b c : ℚ) :
    (checksAt s norm a b c).numIter = s.numIter := rfl

@[simp] lemma checksAt_funcCalls (s : LoopState) (norm : List ℚ) (a b c : ℚ) :
    (checksAt s norm a b c).funcCalls = s.funcCalls := rfl

@[simp] lemma checksAt_trace (s : LoopState) (norm : List ℚ) (a b c : ℚ) :
    (checksAt s norm a b c).trace
      = s.trace ++ [Event.checkNonneg (divNorm s.pi norm) a,
          Event.checkMarginal (divNorm s.pi norm) (divNorm s.X norm) b,
          Event.checkCost (divNorm s.pi norm) c] := by
  simp [checksAt, addEvent]

@[simp] lemma iterStats_X (s : LoopState) (norm : List ℚ) (p : Coupling) (n : ℕ) :
    (iterStats s norm p n).X = s.X := rfl

@[simp] lemma iterStats_pi (s : LoopState) (norm : List ℚ) (p : Coupling) (n : ℕ) :
    (iterStats s norm p n).pi = p := rfl

@[simp] lemma iterStats_err (s : LoopState) (norm : List ℚ) (p : Coupling) (n : ℕ) :
    (iterStats s norm p n).err = s.err := rfl

@[simp] lemma iterStats_lastNumIter (s : LoopState) (norm : List ℚ) (p : Coupling) (n : ℕ) :
    (iterStats s norm p n).lastNumIter = some n := rfl

@[simp] lemma iterStats_numIter (s : LoopState) (norm : List ℚ) (p : Coupling) (n : ℕ) :
    (iterStats s norm p n).numIter = s.numIter + n := rfl

@[simp] lemma iterStats_funcCalls (s : LoopState) (norm : List ℚ) (p : Coupling) (n : ℕ) :
    (iterStats s norm p n).funcCalls = s.funcCalls + 1 := rfl

@[simp] lemma iterStats_trace (s : LoopState) (norm : List ℚ) (p : Coupling) (n : ℕ) :
    (iterStats s norm p n).trace
      = s.trace ++ [Event.checkNonneg (divNorm p norm) (1/1000000),
          Event.checkMarginal (divNorm p norm) (divNorm s.X norm) (1/1000000),
          Event.checkCost (divNorm p norm) (1/1000)] := by
  simp [iterStats]

/-! ### Shape lemmas for the projection dispatch and one iteration -/

lemma projBranch_dualCase (cfg : Config) (o : Oracles) (t : ℕ) (X : Image)
    (eArg : List ℚ) (p1 : Coupling) (h : cfg.capacityProjMod = -1) :
    projBranch cfg o t X eArg p1
      = ProjResult.dual (o.dualProj p1 X eArg).1 (o.dualProj p1 X eArg).2 := by
  simp [projBranch, h]

lemma projBranch_zeroCase (cfg : Config) (o : Oracles) (t : ℕ) (X : Image)
    (eArg : List ℚ) (p1 : Coupling) (_h1 : cfg.capacityProjMod ≠ -1)
    (h0 : cfg.capacityProjMod = 0) :
    projBranch cfg o t X eArg p1 = ProjResult.divZero := by
  simp [projBranch, h0]

lemma projBranch_capCase (cfg : Config) (o : Oracles) (t : ℕ) (X : Image)
    (eArg : List ℚ) (p1 : Coupling) (h1 : cfg.capacityProjMod ≠ -1)
    (h0 : cfg.capacityProjMod ≠ 0) (hd : ((t : ℤ) + 1) % cfg.capacityProjMod = 0) :
    projBranch cfg o t X eArg p1 = ProjResult.capacity (o.capacityProj p1 X eArg) := by
  simp [projBranch, h1, h0, hd]

lemma projBranch_skipCase (cfg : Config) (o : Oracles) (t : ℕ) (X : Image)
    (eArg : List ℚ) (p1 : Coupling) (h1 : cfg.capacityProjMod ≠ -1)
    (h0 : cfg.capacityProjMod ≠ 0) (hd : ((t : ℤ) + 1) % cfg.capacityProjMod ≠ 0) :
    projBranch cfg o t X eArg p1 = ProjResult.skip := by
  simp [projBranch, h1, h0, hd]

lemma loopIter_errSome (cfg : Config) (o : Oracles) (norm : List ℚ) (t : ℕ)
    (s : LoopState) (e : PyErr) (h : s.err = some e) :
    loopIter cfg o norm t s = s := by
  unfold loopIter
  rw [h]

lemma loopIter_errNone (cfg : Config) (o : Oracles) (norm : List ℚ) (t : ℕ)
    (s : LoopState) (h : s.err = none) :
    loopIter cfg o norm t s
      = iterCore cfg o norm t
          (addEvent s (Event.predictCall
            (clampImage cfg.clipMin cfg.clipMax (o.decode s.pi s.X))))
          (piStep cfg.lr s.pi (o.grad t s.pi s.X)) := by
  unfold loopIter
  rw [h]

lemma iterCore_dual (cfg : Config) (o : Oracles) (norm : List ℚ) (t : ℕ)
    (s : LoopState) (p1 p2 : Coupling) (n : ℕ)
    (hb : projBranch cfg o t s.X (epsArgOf cfg.eps norm) p1 = ProjResult.dual p2 n) :
    iterCore cfg o norm t s p1
      = iterStats (addEvent s (Event.dualProjCall p1 (epsArgOf cfg.eps norm))) norm p2 n := by
  unfold iterCore
  rw [hb]

lemma iterCore_capacity (cfg : Config) (o : Oracles) (norm : List ℚ) (t : ℕ)
    (s : LoopState) (p1 p2 : Coupling)
    (hb : projBranch cfg o t s.X (epsArgOf cfg.eps norm) p1 = ProjResult.capacity p2) :
    iterCore cfg o norm t s p1
      = iterStats (addEvent s (Event.capacityProjCall p1 (epsArgOf cfg.eps norm)))
          norm p2 3000 := by
  unfold iterCore
  rw [hb]

lemma iterCore_divZero (cfg : Config) (o : Oracles) (norm : List ℚ) (t : ℕ)
    (s : LoopState) (p1 : Coupling)
    (hb : projBranch cfg o t s.X (epsArgOf cfg.eps norm) p1 = ProjResult.divZero) :
    iterCore cfg o norm t s p1 = { s with pi := p1, err := some PyErr.zeroDivision } := by
  unfold iterCore
  rw [hb]

lemma iterCore_skipNone (cfg : Config) (o : Oracles) (norm : List ℚ) (t : ℕ)
    (s : LoopState) (p1 : Coupling)
    (hb : projBranch cfg o t s.X (epsArgOf cfg.eps norm) p1 = ProjResult.skip)
    (hl : s.lastNumIter = none) :
    iterCore cfg o norm t s p1 = { s with pi := p1, err := some PyErr.unboundLocal } := by
  unfold iterCore
  rw [hb, hl]

lemma iterCore_skipSome (cfg : Config) (o : Oracles) (norm : List ℚ) (t : ℕ)
    (s : LoopState) (p1 : Coupling) (n : ℕ)
    (hb : projBranch cfg o t s.X (epsArgOf cfg.eps norm) p1 = ProjResult.skip)
    (hl : s.lastNumIter = some n) :
    iterCore cfg o norm t s p1 = iterStats s norm p1 n := by
  unfold iterCore
  rw [hb, hl]

@[simp] lemma initState_X (o : Oracles) (X : Image) : (initState o X).X = X := rfl

@[simp] lemma initState_pi (o : Oracles) (X : Image) :
    (initState o X).pi = o.initCoupling X := rfl

@[simp] lemma initState_err (o : Oracles) (X : Image) : (initState o X).err = none := rfl

@[simp] lemma initState_trace (o : Oracles) (X : Image) : (initState o X).trace = [] := rfl

@[simp] lemma initState_funcCalls (o : Oracles) (X : Image) :
    (initState o X).funcCalls = 0 := rfl

@[simp] lemma initState_lastNumIter (o : Oracles) (X : Image) :
    (initState o X).lastNumIter = none := rfl

/-! ### Frame and error-propagation lemmas -/

lemma iterCore_X (cfg : Config) (o : Oracles) (norm : List ℚ) (t : ℕ)
    (s : LoopState) (p1 : Coupling) : (iterCore cfg o norm t s p1).X = s.X := by
  unfold iterCore
  split
  · rfl
  · simp
  · simp
  · split
    · rfl
    · simp

lemma loopIter_X (cfg : Config) (o : Oracles) (norm : List ℚ) (t : ℕ) (s : LoopState) :
    (loopIter cfg o norm t s).X = s.X := by
  cases h : s.err with
  | some e => rw [loopIter_errSome cfg o norm t s e h]
  | none => rw [loopIter_errNone cfg o norm t s h, iterCore_X, addEvent_X]

lemma loopFrom_X (cfg : Config) (o : Oracles) (norm : List ℚ) :
    ∀ (k t : ℕ) (s : LoopState), (loopFrom cfg o norm t k s).X = s.X := by
  intro k
  induction k with
  | zero => intro t s; rfl
  | succ k ih =>
      intro t s
      show (loopFrom cfg o norm (t + 1) k (loopIter cfg o norm t s)).X = s.X
      rw [ih, loopIter_X]

lemma loopFrom_errAbsorb (cfg : Config) (o : Oracles) (norm : List ℚ) :
    ∀ (k t : ℕ) (s : LoopState) (e : PyErr), s.err = some e →
      loopFrom cfg o norm t k s = s := by
  intro k
  induction k with
  | zero => intro t s e _; rfl
  | succ k ih =>
      intro t s e h
      show loopFrom cfg o norm (t + 1) k (loopIter cfg o norm t s) = s
      rw [loopIter_errSome cfg o norm t s e h]
      exact ih (t + 1) s e h

lemma loopFrom_errNone_entry (cfg : Config) (o : Oracles) (norm : List ℚ)
    (k t : ℕ) (s : LoopState) (hok : (loopFrom cfg o norm t k s).err = none) :
    s.err = none := by
  cases h : s.err with
  | none => rfl
  | some e =>
      rw [loopFrom_errAbsorb cfg o norm k t s e h, h] at hok
      cases hok

/-! ### Counter-accumulation lemmas -/

lemma iterCore_funcCalls (cfg : Config) (o : Oracles) (norm : List ℚ) (t : ℕ)
    (s : LoopState) (p1 : Coupling)
    (hok : (iterCore cfg o norm t s p1).err = none) :
    (iterCore cfg o norm t s p1).funcCalls = s.funcCalls + 1 := by
  cases hb : projBranch cfg o t s.X (epsArgOf cfg.eps norm) p1 with
  | dual p2 n =>
      rw [iterCore_dual cfg o norm t s p1 p2 n hb]
      simp
  | capacity p2 =>
      rw [iterCore_capacity cfg o norm t s p1 p2 hb]
      simp
  | skip =>
      cases hl : s.lastNumIter with
      | none =>
          rw [iterCore_skipNone cfg o norm t s p1 hb hl] at hok
          cases hok
      | some n =>
          rw [iterCore_skipSome cfg o norm t s p1 n hb hl]
          simp
  | divZero =>
      rw [iterCore_divZero cfg o norm t s p1 hb] at hok
      cases hok

lemma loopIter_funcCalls (cfg : Config) (o : Oracles) (norm : List ℚ) (t : ℕ)
    (s : LoopState) (hok : (loopIter cfg o norm t s).err = none) :
    (loopIter cfg o norm t s).funcCalls = s.funcCalls + 1 := by
  cases h : s.err with
  | some e =>
      rw [loopIter_errSome cfg o norm t s e h, h] at hok
      cases hok
  | none =>
      rw [loopIter_errNone cfg o norm t s h] at hok ⊢
      rw [iterCore_funcCalls cfg o norm t _ _ hok, addEvent_funcCalls]

lemma loopFrom_funcCalls (cfg : Config) (o : Oracles) (norm : List ℚ) :
    ∀ (k t : ℕ) (s : LoopState), (loopFrom cfg o norm t k s).err = none →
      (loopFrom cfg o norm t k s).funcCalls = s.funcCalls + k := by
  intro k
  induction k with
  | zero => intro t s _; rfl
  | succ k ih =>
      intro t s hok
      have hstep : (loopIter cfg o norm t s).err = none :=
        loopFrom_errNone_entry cfg o norm k (t + 1) (loopIter cfg o norm t s) hok
      show (loopFrom cfg o norm (t + 1) k (loopIter cfg o norm t s)).funcCalls
        = s.funcCalls + (k + 1)
      rw [ih (t + 1) (loopIter cfg o norm t s) hok,
        loopIter_funcCalls cfg o norm t s hstep]
      omega

lemma loopIter_numIter_dual (cfg : Config) (o : Oracles) (norm : List ℚ) (t : ℕ)
    (s : LoopState) (hs : s.err = none) (hm : cfg.capacityProjMod = -1) :
    (loopIter cfg o norm t s).numIter
      = s.numIter
        + (o.dualProj (piStep cfg.lr s.pi (o.grad t s.pi s.X)) s.X
            (epsArgOf cfg.eps norm)).2 := by
  rw [loopIter_errNone cfg o norm t s hs,
    iterCore_dual cfg o norm t _ _ _ _ (projBranch_dualCase cfg o t _ _ _ hm)]
  simp

lemma loopIter_numIter_capacity (cfg : Config) (o : Oracles) (norm : List ℚ) (t : ℕ)
    (s : LoopState) (hs : s.err = none) (h1 : cfg.capacityProjMod ≠ -1)
    (h0 : cfg.capacityProjMod ≠ 0) (hd : ((t : ℤ) + 1) % cfg.capacityProjMod = 0) :
    (loopIter cfg o norm t s).numIter = s.numIter + 3000 := by
  rw [loopIter_errNone cfg o norm t s hs,
    iterCore_capacity cfg o norm t _ _ _ (projBranch_capCase cfg o t _ _ _ h1 h0 hd)]
  simp

/-! ### Shape lemmas for the final phase -/

lemma finalPhase_errSome (cfg : Config) (o : Oracles) (norm : List ℚ) (s : LoopState)
    (e : PyErr) (h : s.err = some e) : finalPhase cfg o norm s = (s, none) := by
  unfold finalPhase
  rw [h]

lemma finalPhase_errNone (cfg : Config) (o : Oracles) (norm : List ℚ) (s : LoopState)
    (h : s.err = none) :
    finalPhase cfg o norm s
      = finalPost cfg o norm
          (checksAt (addEvent s (Event.checkHypercube (o.decode s.pi s.X) none)) norm
            (1/100000) (1/100000) (cfg.eps * (1/1000))) := by
  unfold finalPhase
  rw [h]

lemma finalPost_fst_nopost (cfg : Config) (o : Oracles) (norm : List ℚ) (s : LoopState)
    (hp : cfg.postprocess = false) : (finalPost cfg o norm s).1 = s := by
  simp [finalPost, hp]

lemma finalPost_snd_nopost (cfg : Config) (o : Oracles) (norm : List ℚ) (s : LoopState)
    (hp : cfg.postprocess = false) :
    (finalPost cfg o norm s).2 = some (postOutput cfg (o.decode s.pi s.X)) := by
  simp [finalPost, hp]

lemma finalPost_snd_post (cfg : Config) (o : Oracles) (norm : List ℚ) (s : LoopState)
    (hp : cfg.postprocess = true) :
    (finalPost cfg o norm s).2
      = some (postOutput cfg
          (o.decode (o.capacityProj s.pi s.X (epsArgOf cfg.eps norm)) s.X)) := by
  simp [finalPost, hp]

lemma finalPost_fst_trace_post (cfg : Config) (o : Oracles) (norm : List ℚ)
    (s : LoopState) (hp : cfg.postprocess = true) :
    ((finalPost cfg o norm s).1).trace
      = s.trace
        ++ [Event.capacityProjCall s.pi (epsArgOf cfg.eps norm),
          Event.checkHypercube
            (o.decode (o.capacityProj s.pi s.X (epsArgOf cfg.eps norm)) s.X)
            (some (cfg.eps * (5/100))),
          Event.checkNonneg
            (divNorm (o.capacityProj s.pi s.X (epsArgOf cfg.eps norm)) norm) (1/1000000),
          Event.checkMarginal
            (divNorm (o.capacityProj s.pi s.X (epsArgOf cfg.eps norm)) norm)
            (divNorm s.X norm) (1/1000000),
          Event.checkCost
            (divNorm (o.capacityProj s.pi s.X (epsArgOf cfg.eps norm)) norm)
            (cfg.eps * (1/1000))] := by
  simp [finalPost, hp, checksAt, addEvent]

lemma finalPost_fst_X (cfg : Config) (o : Oracles) (norm : List ℚ) (s : LoopState) :
    ((finalPost cfg o norm s).1).X = s.X := by
  unfold finalPost
  split
  · simp [addEvent]
  · rfl

/-! ### The trace invariant -/

lemma traceOK_append (cfg : Config) (o : Oracles) (X : Image) (l1 l2 : List Event)
    (h1 : ∀ e ∈ l1, TraceOK cfg o X e) (h2 : ∀ e ∈ l2, TraceOK cfg o X e) :
    ∀ e ∈ l1 ++ l2, TraceOK cfg o X e := by
  intro e he
  rcases List.mem_append.mp he with h | h
  · exact h1 e h
  · exact h2 e h

lemma iterStats_traceOK (cfg : Config) (o : Oracles) (X : Image) (s : LoopState)
    (p : Coupling) (n : ℕ) (hX : s.X = X)
    (h : ∀ e ∈ s.trace, TraceOK cfg o X e) :
    ∀ e ∈ (iterStats s (normsOf X) p n).trace, TraceOK cfg o X e := by
  rw [iterStats_trace, hX]
  refine traceOK_append cfg o X _ _ h ?_
  intro e he
  simp only [List.mem_cons, List.not_mem_nil, or_false] at he
  rcases he with rfl | rfl | rfl
  · exact ⟨p, rfl⟩
  · exact ⟨⟨p, rfl⟩, rfl⟩
  · exact ⟨p, rfl⟩

lemma iterCore_traceOK (cfg : Config) (o : Oracles) (X : Image) (t : ℕ)
    (s : LoopState) (p1 : Coupling) (hX : s.X = X)
    (h : ∀ e ∈ s.trace, TraceOK cfg o X e) :
    ∀ e ∈ (iterCore cfg o (normsOf X) t s p1).trace, TraceOK cfg o X e := by
  cases hb : projBranch cfg o t s.X (epsArgOf cfg.eps (normsOf X)) p1 with
  | dual p2 n =>
      rw [iterCore_dual cfg o (normsOf X) t s p1 p2 n hb]
      refine iterStats_traceOK cfg o X _ p2 n (by simp [hX]) ?_
      rw [addEvent_trace]
      refine traceOK_append cfg o X _ _ h ?_
      intro e he
      simp only [List.mem_cons, List.not_mem_nil, or_false] at he
      subst he
      exact rfl
  | capacity p2 =>
      rw [iterCore_capacity cfg o (normsOf X) t s p1 p2 hb]
      refine iterStats_traceOK cfg o X _ p2 3000 (by simp [hX]) ?_
      rw [addEvent_trace]
      refine traceOK_append cfg o X _ _ h ?_
      intro e he
      simp only [List.mem_cons, List.not_mem_nil, or_false] at he
      subst he
      exact rfl
  | skip =>
      cases hl : s.lastNumIter with
      | none =>
          rw [iterCore_skipNone cfg o (normsOf X) t s p1 hb hl]
          exact h
      | some n =>
          rw [iterCore_skipSome cfg o (normsOf X) t s p1 n hb hl]
          exact iterStats_traceOK cfg o X s p1 n hX h
  | divZero =>
      rw [iterCore_divZero cfg o (normsOf X) t s p1 hb]
      exact h

lemma loopIter_traceOK (cfg : Config) (o : Oracles) (X : Image) (t : ℕ)
    (s : LoopState) (hX : s.X = X)
    (h : ∀ e ∈ s.trace, TraceOK cfg o X e) :
    ∀ e ∈ (loopIter cfg o (normsOf X) t s).trace, TraceOK cfg o X e := by
  cases hs : s.err with
  | some e0 =>
      rw [loopIter_errSome cfg o (normsOf X) t s e0 hs]
      exact h
  | none =>
      rw [loopIter_errNone cfg o (normsOf X) t s hs]
      refine iterCore_traceOK cfg o X t _ _ (by simp [hX]) ?_
      rw [addEvent_trace]
      refine traceOK_append cfg o X _ _ h ?_
      intro e he
      simp only [List.mem_cons, List.not_mem_nil, or_false] at he
      subst he
      exact ⟨s.pi, by rw [hX]⟩

lemma loopFrom_traceOK (cfg : Config) (o : Oracles) (X : Image) :
    ∀ (k t : ℕ) (s : LoopState), s.X = X → (∀ e ∈ s.trace, TraceOK cfg o X e) →
      ∀ e ∈ (loopFrom cfg o (normsOf X) t k s).trace, TraceOK cfg o X e := by
  intro k
  induction k with
  | zero => intro t s _ h; exact h
  | succ k ih =>
      intro t s hX h
      show ∀ e ∈ (loopFrom cfg o (normsOf X) (t + 1) k (loopIter cfg o (normsOf X) t s)).trace,
        TraceOK cfg o X e
      exact ih (t + 1) (loopIter cfg o (normsOf X) t s)
        (by rw [loopIter_X, hX]) (loopIter_traceOK cfg o X t s hX h)

lemma finalPhase_traceOK (cfg : Config) (o : Oracles) (X : Image) (s : LoopState)
    (hX : s.X = X) (h : ∀ e ∈ s.trace, TraceOK cfg o X e) :
    ∀ e ∈ ((finalPhase cfg o (normsOf X) s).1).trace, TraceOK cfg o X e := by
  cases hs : s.err with
  | some e0 =>
      rw [finalPhase_errSome cfg o (normsOf X) s e0 hs]
      exact h
  | none =>
      rw [finalPhase_errNone cfg o (normsOf X) s hs]
      have hmid : ∀ e ∈ (checksAt
          (addEvent s (Event.checkHypercube (o.decode s.pi s.X) none)) (normsOf X)
          (1/100000) (1/100000) (cfg.eps * (1/1000))).trace, TraceOK cfg o X e := by
        rw [checksAt_trace, addEvent_trace, addEvent_pi, addEvent_X, hX]
        refine traceOK_append cfg o X _ _ ?_ ?_
        · refine traceOK_append cfg o X _ _ h ?_
          intro e he
          simp only [List.mem_cons, List.not_mem_nil, or_false] at he
          subst he
          exact ⟨s.pi, rfl⟩
        · intro e he
          simp only [List.mem_cons, List.not_mem_nil, or_false] at he
          rcases he with rfl | rfl | rfl
          · exact ⟨s.pi, rfl⟩
          · exact ⟨⟨s.pi, rfl⟩, rfl⟩
          · exact ⟨s.pi, rfl⟩
      cases hp : cfg.postprocess with
      | false =>
          rw [finalPost_fst_nopost cfg o (normsOf X) _ hp]
          exact hmid
      | true =>
          rw [finalPost_fst_trace_post cfg o (normsOf X) _ hp]
          refine traceOK_append cfg o X _ _ hmid ?_
          intro e he
          simp only [checksAt_X, addEvent_X, checksAt_pi, addEvent_pi, hX,
            List.mem_cons, List.not_mem_nil, or_false] at he
          rcases he with rfl | rfl | rfl | rfl | rfl
          · exact rfl
          · exact ⟨o.capacityProj s.pi X (epsArgOf cfg.eps (normsOf X)), rfl⟩
          · exact ⟨o.capacityProj s.pi X (epsArgOf cfg.eps (normsOf X)), rfl⟩
          · exact ⟨⟨o.capacityProj s.pi X (epsArgOf cfg.eps (normsOf X)), rfl⟩, rfl⟩
          · exact ⟨o.capacityProj s.pi X (epsArgOf cfg.eps (normsOf X)), rfl⟩

lemma perturb_traceOK (cfg : Config) (o : Oracles) (X : Image) :
    ∀ e ∈ (perturb cfg o X).1.trace, TraceOK cfg o X e := by
  unfold perturb loopFinal
  refine finalPhase_traceOK cfg o X _ ?_ ?_
  · rw [loopFrom_X, initState_X]
  · refine loopFrom_traceOK cfg o X cfg.nbIter 0 (initState o X) rfl ?_
    intro e he
    cases he

/-! ### Further helper lemmas -/

lemma infNormQ_nonneg (v : Vec) : 0 ≤ infNormQ v := by
  induction v with
  | nil => exact le_refl 0
  | cons x xs ih => exact le_max_of_le_right ih

lemma iterCore_checkEvents (cfg : Config) (o : Oracles) (norm : List ℚ) (t : ℕ)
    (s : LoopState) (p1 : Coupling)
    (hok : (iterCore cfg o norm t s p1).err = none) :
    checkEvents (iterCore cfg o norm t s p1).trace
      = checkEvents s.trace
        ++ [Event.checkNonneg (divNorm (iterCore cfg o norm t s p1).pi norm) (1/1000000),
          Event.checkMarginal (divNorm (iterCore cfg o norm t s p1).pi norm)
            (divNorm s.X norm) (1/1000000),
          Event.checkCost (divNorm (iterCore cfg o norm t s p1).pi norm) (1/1000)] := by
  cases hb : projBranch cfg o t s.X (epsArgOf cfg.eps norm) p1 with
  | dual p2 n =>
      rw [iterCore_dual cfg o norm t s p1 p2 n hb]
      simp [checkEvents, isCheckEvent, List.filter_append]
  | capacity p2 =>
      rw [iterCore_capacity cfg o norm t s p1 p2 hb]
      simp [checkEvents, isCheckEvent, List.filter_append]
  | skip =>
      cases hl : s.lastNumIter with
      | none =>
          rw [iterCore_skipNone cfg o norm t s p1 hb hl] at hok
          cases hok
      | some n =>
          rw [iterCore_skipSome cfg o norm t s p1 n hb hl]
          simp [checkEvents, isCheckEvent, List.filter_append]
  | divZero =>
      rw [iterCore_divZero cfg o norm t s p1 hb] at hok
      cases hok

lemma iterCore_trace_mono (cfg : Config) (o : Oracles) (norm : List ℚ) (t : ℕ)
    (s : LoopState) (p1 : Coupling) (e : Event) (he : e ∈ s.trace) :
    e ∈ (iterCore cfg o norm t s p1).trace := by
  cases hb : projBranch cfg o t s.X (epsArgOf cfg.eps norm) p1 with
  | dual p2 n =>
      rw [iterCore_dual cfg o norm t s p1 p2 n hb]
      simp [he]
  | capacity p2 =>
      rw [iterCore_capacity cfg o norm t s p1 p2 hb]
      simp [he]
  | skip =>
      cases hl : s.lastNumIter with
      | none =>
          rw [iterCore_skipNone cfg o norm t s p1 hb hl]
          exact he
      | some n =>
          rw [iterCore_skipSome cfg o norm t s p1 n hb hl]
          simp [he]
  | divZero =>
      rw [iterCore_divZero cfg o norm t s p1 hb]
      exact he

lemma loopIter_trace_mono (cfg : Config) (o : Oracles) (norm : List ℚ) (t : ℕ)
    (s : LoopState) (e : Event) (he : e ∈ s.trace) :
    e ∈ (loopIter cfg o norm t s).trace := by
  cases hs : s.err with
  | some e0 =>
      rw [loopIter_errSome cfg o norm t s e0 hs]
      exact he
  | none =>
      rw [loopIter_errNone cfg o norm t s hs]
      refine iterCore_trace_mono cfg o norm t _ _ e ?_
      simp [he]

lemma loopFrom_trace_mono (cfg : Config) (o : Oracles) (norm : List ℚ) :
    ∀ (k t : ℕ) (s : LoopState) (e : Event), e ∈ s.trace →
      e ∈ (loopFrom cfg o norm t k s).trace := by
  intro k
  induction k with
  | zero => intro t s e he; exact he
  | succ k ih =>
      intro t s e he
      exact ih (t + 1) (loopIter cfg o norm t s) e
        (loopIter_trace_mono cfg o norm t s e he)

lemma finalPhase_trace_mono (cfg : Config) (o : Oracles) (norm : List ℚ)
    (s : LoopState) (e : Event) (he : e ∈ s.trace) :
    e ∈ ((finalPhase cfg o norm s).1).trace := by
  cases hs : s.err with
  | some e0 =>
      rw [finalPhase_errSome cfg o norm s e0 hs]
      exact he
  | none =>
      rw [finalPhase_errNone cfg o norm s hs]
      cases hp : cfg.postprocess with
      | false =>
          rw [finalPost_fst_nopost cfg o norm _ hp]
          simp [he]
      | true =>
          rw [finalPost_fst_trace_post cfg o norm _ hp]
          simp [he]

lemma loopIter_dualEvent_mem (cfg : Config) (o : Oracles) (norm : List ℚ) (t : ℕ)
    (s : LoopState) (hs : s.err = none) (hm : cfg.capacityProjMod = -1) :
    Event.dualProjCall (piStep cfg.lr s.pi (o.grad t s.pi s.X)) (epsArgOf cfg.eps norm)
      ∈ (loopIter cfg o norm t s).trace := by
  rw [loopIter_errNone cfg o norm t s hs,
    iterCore_dual cfg o norm t _ _ _ _ (projBranch_dualCase cfg o t _ _ _ hm)]
  simp

/-! ### Claims -/

/-- C1 (amended): on every non-raising outer iteration, `dual_projection` is
invoked exactly when `capacity_proj_mod = -1` (hence on every iteration in
that mode), the capacity-constrained projection exactly when the capacity
mode is enabled and `(t+1)` is a multiple of `capacity_proj_mod`, and — the
amendment — when the capacity mode is enabled but `(t+1)` is *not* a
multiple, no projection at all is applied (the original claim said
`dual_projection` runs in that case). -/
theorem claim1_projection_dispatch (cfg : Config) (o : Oracles) (norm : List ℚ)
    (t : ℕ) (s : LoopState) (hs : s.err = none) :
    (cfg.capacityProjMod = -1 →
      projEvents (loopIter cfg o norm t s).trace
        = projEvents s.trace
          ++ [Event.dualProjCall (piStep cfg.lr s.pi (o.grad t s.pi s.X))
              (epsArgOf cfg.eps norm)])
  ∧ (cfg.capacityProjMod ≠ -1 → cfg.capacityProjMod ≠ 0 →
      ((t : ℤ) + 1) % cfg.capacityProjMod = 0 →
      projEvents (loopIter cfg o norm t s).trace
        = projEvents s.trace
          ++ [Event.capacityProjCall (piStep cfg.lr s.pi (o.grad t s.pi s.X))
              (epsArgOf cfg.eps norm)])
  ∧ (cfg.capacityProjMod ≠ -1 → cfg.capacityProjMod ≠ 0 →
      ((t : ℤ) + 1) % cfg.capacityProjMod ≠ 0 →
      projEvents (loopIter cfg o norm t s).trace = projEvents s.trace) := by
  refine ⟨?_, ?_, ?_⟩
  · intro hm
    rw [loopIter_errNone cfg o norm t s hs,
      iterCore_dual cfg o norm t _ _ _ _ (projBranch_dualCase cfg o t _ _ _ hm)]
    simp [projEvents, isProjEvent, List.filter_append]
  · intro h1 h0 hd
    rw [loopIter_errNone cfg o norm t s hs,
      iterCore_capacity cfg o norm t _ _ _ (projBranch_capCase cfg o t _ _ _ h1 h0 hd)]
    simp [projEvents, isProjEvent, List.filter_append]
  · intro h1 h0 hd
    rw [loopIter_errNone cfg o norm t s hs]
    cases hl : s.lastNumIter with
    | none =>
        rw [iterCore_skipNone cfg o norm t _ _
          (projBranch_skipCase cfg o t _ _ _ h1 h0 hd) (by simp [hl])]
        simp [projEvents, isProjEvent, List.filter_append]
    | some n =>
        rw [iterCore_skipSome cfg o norm t _ _ n
          (projBranch_skipCase cfg o t _ _ _ h1 h0 hd) (by simp [hl])]
        simp [projEvents, isProjEvent, List.filter_append]

/-- C1 witness: with `capacity_proj_mod = -1` the first iteration records
exactly one `dual_projection` call. -/
theorem claim1_projection_dispatch_witness :
    projEvents (loopIter cfgDual oId [1] 0 sInit).trace
      = projEvents sInit.trace
        ++ [Event.dualProjCall (piStep cfgDual.lr sInit.pi (oId.grad 0 sInit.pi sInit.X))
            (epsArgOf cfgDual.eps [1])] :=
  (claim1_projection_dispatch cfgDual oId [1] 0 sInit rfl).1 rfl

/-- C1 counterexample: with `capacity_proj_mod = 2` and `nb_iter = 1`, the
claim as stated promises that iteration `t = 0` applies `dual_projection`
(the "otherwise" case), but the run records no projection call at all and
raises `UnboundLocalError` instead. -/
theorem claim1_projection_dispatch_cex :
    projEvents (perturb cfgCap2 oId X1).1.trace = []
  ∧ (perturb cfgCap2 oId X1).1.err = some PyErr.unboundLocal := by
  exact ⟨by decide, by decide⟩

/-- C2 (amended): for every `perturb` call with `nb_iter ≥ 1` and
`capacity_proj_mod ∉ {-1, 0, 1}`, iteration `t = 0` takes neither
projection branch and then reads the never-assigned local `num_iter`, so
the call raises `UnboundLocalError` and returns no image; the amendment
excludes `capacity_proj_mod = 0`, where evaluating `(t+1) % 0` raises
`ZeroDivisionError` before `num_iter` is ever read. -/
theorem claim2_unbound_local (cfg : Config) (o : Oracles) (X : Image)
    (h1 : cfg.capacityProjMod ≠ -1) (h0 : cfg.capacityProjMod ≠ 0)
    (hu : cfg.capacityProjMod ≠ 1) (hn : 1 ≤ cfg.nbIter) :
    (perturb cfg o X).1.err = some PyErr.unboundLocal
  ∧ (perturb cfg o X).2 = none := by
  have hndvd : (((0 : ℕ) : ℤ) + 1) % cfg.capacityProjMod ≠ 0 := by
    intro hmod
    have hdvd : cfg.capacityProjMod ∣ (((0 : ℕ) : ℤ) + 1) := Int.dvd_of_emod_eq_zero hmod
    have hone : cfg.capacityProjMod ∣ (1 : ℤ) := by simpa using hdvd
    rcases Int.isUnit_iff.mp (isUnit_of_dvd_one hone) with h | h
    · exact hu h
    · exact h1 h
  have hiter : (loopIter cfg o (normsOf X) 0 (initState o X)).err
      = some PyErr.unboundLocal := by
    rw [loopIter_errNone cfg o (normsOf X) 0 (initState o X) rfl,
      iterCore_skipNone cfg o (normsOf X) 0 _ _
        (projBranch_skipCase cfg o 0 _ _ _ h1 h0 hndvd) (by simp)]
  obtain ⟨k, hk⟩ : ∃ k, cfg.nbIter = k + 1 := ⟨cfg.nbIter - 1, by omega⟩
  have hfin : loopFinal cfg o X = loopIter cfg o (normsOf X) 0 (initState o X) := by
    unfold loopFinal
    rw [hk]
    show loopFrom cfg o (normsOf X) 1 k (loopIter cfg o (normsOf X) 0 (initState o X))
      = loopIter cfg o (normsOf X) 0 (initState o X)
    exact loopFrom_errAbsorb cfg o (normsOf X) k 1 _ _ hiter
  constructor
  · show ((finalPhase cfg o (normsOf X) (loopFinal cfg o X)).1).err = _
    rw [hfin, finalPhase_errSome cfg o (normsOf X) _ _ hiter]
    exact hiter
  · show (finalPhase cfg o (normsOf X) (loopFinal cfg o X)).2 = none
    rw [hfin, finalPhase_errSome cfg o (normsOf X) _ _ hiter]

/-- C2 witness: with `capacity_proj_mod = 2` and `nb_iter = 1` the call
raises `UnboundLocalError` and returns nothing. -/
theorem claim2_unbound_local_witness :
    (perturb cfgCap2 oId X1).1.err = some PyErr.unboundLocal
  ∧ (perturb cfgCap2 oId X1).2 = none :=
  claim2_unbound_local cfgCap2 oId X1 (by decide) (by decide) (by decide) (by decide)

/-- C2 counterexample: `capacity_proj_mod = 0` is not in `{-1, 1}`, yet the
call raises `ZeroDivisionError` at the modulus, not the unbound-local error
the claim asserts. -/
theorem claim2_unbound_local_cex :
    (perturb cfgCap0 oId X1).1.err = some PyErr.zeroDivision
  ∧ ¬ (perturb cfgCap0 oId X1).1.err = some PyErr.unboundLocal := by
  exact ⟨by decide, by decide⟩

/-- C3: every non-raising loop iteration appends, after its projection,
exactly the three checks on the normalized coupling with tolerances `1e-6`
(non-negativity), `1e-6` (marginals against `X / normalization`) and `1e-3`
(transport cost); after the loop the same three checks run with tolerances
`1e-5`, `1e-5` and `eps * 1e-3` (preceded by the hypercube check), and the
checks are diagnostic only — they leave the coupling unchanged (the check
events record the final coupling itself, and the post-loop state keeps
`pi` intact). -/
theorem claim3_diagnostic_checks (cfg : Config) (o : Oracles) (norm : List ℚ)
    (t : ℕ) (s : LoopState) (hs : s.err = none) :
    ((loopIter cfg o norm t s).err = none →
      checkEvents (loopIter cfg o norm t s).trace
        = checkEvents s.trace
          ++ [Event.checkNonneg (divNorm (loopIter cfg o norm t s).pi norm) (1/1000000),
            Event.checkMarginal (divNorm (loopIter cfg o norm t s).pi norm)
              (divNorm s.X norm) (1/1000000),
            Event.checkCost (divNorm (loopIter cfg o norm t s).pi norm) (1/1000)])
  ∧ (cfg.postprocess = false →
      ((finalPhase cfg o norm s).1).trace
        = s.trace
          ++ [Event.checkHypercube (o.decode s.pi s.X) none,
            Event.checkNonneg (divNorm s.pi norm) (1/100000),
            Event.checkMarginal (divNorm s.pi norm) (divNorm s.X norm) (1/100000),
            Event.checkCost (divNorm s.pi norm) (cfg.eps * (1/1000))]
      ∧ ((finalPhase cfg o norm s).1).pi = s.pi) := by
  constructor
  · intro hok
    rw [loopIter_errNone cfg o norm t s hs] at hok ⊢
    rw [iterCore_checkEvents cfg o norm t _ _ hok]
    simp [checkEvents, isCheckEvent, List.filter_append]
  · intro hp
    rw [finalPhase_errNone cfg o norm s hs, finalPost_fst_nopost cfg o norm _ hp]
    constructor
    · simp
    · simp

/-- C3 witness: the first iteration of the dual-projection fixture records
exactly the three in-loop checks on the normalized projected coupling. -/
theorem claim3_diagnostic_checks_witness :
    checkEvents (loopIter cfgDual oId [1] 0 sInit).trace
      = checkEvents sInit.trace
        ++ [Event.checkNonneg (divNorm (loopIter cfgDual oId [1] 0 sInit).pi [1])
            (1/1000000),
          Event.checkMarginal (divNorm (loopIter cfgDual oId [1] 0 sInit).pi [1])
            (divNorm sInit.X [1]) (1/1000000),
          Event.checkCost (divNorm (loopIter cfgDual oId [1] 0 sInit).pi [1]) (1/1000)] :=
  (claim3_diagnostic_checks cfgDual oId [1] 0 sInit rfl).1 (by decide)

/-- C4: every projection call in a `perturb` run receives the budget
`eps * X[b].sum()` per batch element, and every constraint check divides its
coupling argument by the same per-element total mass (the marginal check
also compares against `X` divided by it). -/
theorem claim4_budget_normalization (cfg : Config) (o : Oracles) (X : Image) :
    (∀ pa a, Event.dualProjCall pa a ∈ (perturb cfg o X).1.trace →
        a = X.map (fun v => cfg.eps * sumQ v))
  ∧ (∀ pa a, Event.capacityProjCall pa a ∈ (perturb cfg o X).1.trace →
        a = X.map (fun v => cfg.eps * sumQ v))
  ∧ (∀ pa xa tol, Event.checkMarginal pa xa tol ∈ (perturb cfg o X).1.trace →
        xa = divNorm X (X.map sumQ) ∧ ∃ q, pa = divNorm q (X.map sumQ))
  ∧ (∀ pa tol, Event.checkNonneg pa tol ∈ (perturb cfg o X).1.trace →
        ∃ q, pa = divNorm q (X.map sumQ))
  ∧ (∀ pa tol, Event.checkCost pa tol ∈ (perturb cfg o X).1.trace →
        ∃ q, pa = divNorm q (X.map sumQ)) := by
  have key := perturb_traceOK cfg o X
  have hmap : epsArgOf cfg.eps (normsOf X) = X.map (fun v => cfg.eps * sumQ v) := by
    unfold epsArgOf normsOf
    rw [List.map_map]
    rfl
  refine ⟨?_, ?_, ?_, ?_, ?_⟩
  · intro pa a hmem
    have h := key _ hmem
    rw [← hmap]
    exact h
  · intro pa a hmem
    have h := key _ hmem
    rw [← hmap]
    exact h
  · intro pa xa tol hmem
    have h : (∃ p, pa = divNorm p (normsOf X)) ∧ xa = divNorm X (normsOf X) :=
      key _ hmem
    exact ⟨h.2, h.1⟩
  · intro pa tol hmem
    exact key _ hmem
  · intro pa tol hmem
    exact key _ hmem

/-- C4 witness: the budget recorded for the fixture's `dual_projection`
call is `eps` times the total mass of the single batch element. -/
theorem claim4_budget_normalization_witness :
    epsArgOf cfgDual.eps (normsOf X1) = X1.map (fun v => cfgDual.eps * sumQ v) := by
  refine (claim4_budget_normalization cfgDual oId X1).1
    (piStep cfgDual.lr sInit.pi (oId.grad 0 sInit.pi sInit.X))
    (epsArgOf cfgDual.eps (normsOf X1)) ?_
  refine finalPhase_trace_mono cfgDual oId (normsOf X1) (loopFinal cfgDual oId X1) _ ?_
  show _ ∈ (loopIter cfgDual oId (normsOf X1) 0 sInit).trace
  exact loopIter_dualEvent_mem cfgDual oId (normsOf X1) 0 sInit rfl rfl

/-- C5: on every non-raising iteration in the `dual_projection` mode, the
coupling handed to the projection is exactly the previous coupling plus
`lr` times the gradient divided per batch element by its infinity norm plus
`1e-8`, and that divisor is strictly positive for every gradient, including
an identically zero one, so the guarded division cannot divide by zero. -/
theorem claim5_gradient_step (cfg : Config) (o : Oracles) (norm : List ℚ)
    (t : ℕ) (s : LoopState) (hs : s.err = none) (hm : cfg.capacityProjMod = -1) :
    Event.dualProjCall (piStep cfg.lr s.pi (o.grad t s.pi s.X)) (epsArgOf cfg.eps norm)
      ∈ (loopIter cfg o norm t s).trace
  ∧ ∀ g : Vec, 0 < infNormQ g + 1/100000000 := by
  constructor
  · exact loopIter_dualEvent_mem cfg o norm t s hs hm
  · intro g
    have h0 : 0 ≤ infNormQ g := infNormQ_nonneg g
    have h1 : (0 : ℚ) < 1/100000000 := by norm_num
    linarith

/-- C5 witness: the fixture's first iteration records the gradient-stepped
coupling as the projection input, and the zero gradient's divisor is
positive. -/
theorem claim5_gradient_step_witness :
    Event.dualProjCall (piStep cfgDual.lr sInit.pi (oId.grad 0 sInit.pi sInit.X))
        (epsArgOf cfgDual.eps [1]) ∈ (loopIter cfgDual oId [1] 0 sInit).trace
  ∧ 0 < infNormQ ([] : Vec) + 1/100000000 :=
  ⟨(claim5_gradient_step cfgDual oId [1] 0 sInit rfl rfl).1,
    (claim5_gradient_step cfgDual oId [1] 0 sInit rfl rfl).2 ([] : Vec)⟩

/-- C6: every image handed to `predict` in a `perturb` run is a decode
clamped to `[clip_min, clip_max]` — whatever the `clipping` flag says —
while the `check_hypercube` constraint check after the loop receives the
*unclamped* decode of the loop-final coupling. -/
theorem claim6_clamp_policy (cfg : Config) (o : Oracles) (X : Image)
    (s : LoopState) (hs : s.err = none) :
    (∀ img, Event.predictCall img ∈ (perturb cfg o X).1.trace →
        ∃ p, img = clampImage cfg.clipMin cfg.clipMax (o.decode p X))
  ∧ Event.checkHypercube (o.decode s.pi s.X) none
      ∈ ((finalPhase cfg o (normsOf X) s).1).trace := by
  constructor
  · intro img hmem
    exact perturb_traceOK cfg o X _ hmem
  · rw [finalPhase_errNone cfg o (normsOf X) s hs]
    cases hp : cfg.postprocess with
    | false =>
        rw [finalPost_fst_nopost cfg o (normsOf X) _ hp]
        simp
    | true =>
        rw [finalPost_fst_trace_post cfg o (normsOf X) _ hp]
        simp

/-- C6 witness: the unclamped decode of the loop-final coupling appears as
the final hypercube check of the fixture run. -/
theorem claim6_clamp_policy_witness :
    Event.checkHypercube (oId.decode sInit.pi sInit.X) none
      ∈ ((finalPhase cfgDual oId (normsOf X1) sInit).1).trace :=
  (claim6_clamp_policy cfgDual oId X1 sInit rfl).2

/-- C7: a non-raising `perturb` call returns the decode of the final
coupling — the loop-final coupling, run through one extra
capacity-constrained projection when `postprocess` is set — and that image
is clamped to `[clip_min, clip_max]` exactly when the `clipping` flag is
true. -/
theorem claim7_return_value (cfg : Config) (o : Oracles) (X : Image)
    (hok : (loopFinal cfg o X).err = none) :
    (cfg.clipping = true →
      (perturb cfg o X).2
        = some (clampImage cfg.clipMin cfg.clipMax (o.decode (finalPi cfg o X) X)))
  ∧ (cfg.clipping = false →
      (perturb cfg o X).2 = some (o.decode (finalPi cfg o X) X)) := by
  have hX : (loopFinal cfg o X).X = X := by
    unfold loopFinal
    rw [loopFrom_X, initState_X]
  have hout : (perturb cfg o X).2
      = some (postOutput cfg (o.decode (finalPi cfg o X) X)) := by
    show (finalPhase cfg o (normsOf X) (loopFinal cfg o X)).2 = _
    rw [finalPhase_errNone cfg o (normsOf X) _ hok]
    cases hp : cfg.postprocess with
    | false =>
        rw [finalPost_snd_nopost cfg o (normsOf X) _ hp]
        simp [finalPi, hp, hX]
    | true =>
        rw [finalPost_snd_post cfg o (normsOf X) _ hp]
        simp [finalPi, hp, hX]
  constructor
  · intro hc
    rw [hout]
    simp [postOutput, hc]
  · intro hc
    rw [hout]
    simp [postOutput, hc]

/-- C7 witness: the fixture run (clipping off, postprocess off) returns the
unclamped decode of the final coupling. -/
theorem claim7_return_value_witness :
    (perturb cfgDual oId X1).2 = some (oId.decode (finalPi cfgDual oId X1) X1) :=
  (claim7_return_value cfgDual oId X1 (by decide)).2 rfl

/-- C8: every non-raising outer iteration increments `func_calls` by one —
so a completed call grows it by exactly `nb_iter` — and accumulates into
`num_iter` the projection's reported inner-iteration count:
`dual_projection`'s own report in the dual mode, and the fixed constant
`3000` when the capacity-constrained path runs. -/
theorem claim8_counters (cfg : Config) (o : Oracles) (norm : List ℚ)
    (t k : ℕ) (s : LoopState) (hs : s.err = none) :
    ((loopIter cfg o norm t s).err = none →
      (loopIter cfg o norm t s).funcCalls = s.funcCalls + 1)
  ∧ (cfg.capacityProjMod = -1 →
      (loopIter cfg o norm t s).numIter
        = s.numIter
          + (o.dualProj (piStep cfg.lr s.pi (o.grad t s.pi s.X)) s.X
              (epsArgOf cfg.eps norm)).2)
  ∧ (cfg.capacityProjMod ≠ -1 → cfg.capacityProjMod ≠ 0 →
      ((t : ℤ) + 1) % cfg.capacityProjMod = 0 →
      (loopIter cfg o norm t s).numIter = s.numIter + 3000)
  ∧ ((loopFrom cfg o norm t k s).err = none →
      (loopFrom cfg o norm t k s).funcCalls = s.funcCalls + k) :=
  ⟨fun hok => loopIter_funcCalls cfg o norm t s hok,
    fun hm => loopIter_numIter_dual cfg o norm t s hs hm,
    fun h1 h0 hd => loopIter_numIter_capacity cfg o norm t s hs h1 h0 hd,
    fun hok => loopFrom_funcCalls cfg o norm k t s hok⟩

/-- C8 witness: the fixture's one-iteration loop finishes with
`func_calls` incremented by exactly one. -/
theorem claim8_counters_witness :
    (loopFrom cfgDual oId [1] 0 1 sInit).funcCalls = sInit.funcCalls + 1 :=
  (claim8_counters cfgDual oId [1] 0 1 sInit rfl).2.2.2 (by decide)

/-- C9: a malformed configuration — negative budget `eps` or non-positive
`kernel_size` — is rejected at initialization. -/
theorem claim9_init_validation (cfg : Config)
    (h : cfg.eps < 0 ∨ cfg.kernelSize ≤ 0) :
    isRejected (projectedGradientInit cfg) = true := by
  unfold projectedGradientInit wassersteinAttackInit
  rcases h with h | h
  · rw [if_pos h]
    rfl
  · by_cases he : cfg.eps < 0
    · rw [if_pos he]
      rfl
    · rw [if_neg he, if_pos h]
      rfl

/-- C9 witness: a configuration with `eps = -1` is rejected. -/
theorem claim9_init_validation_witness :
    isRejected (projectedGradientInit cfgBad) = true :=
  claim9_init_validation cfgBad (Or.inl (by decide))

/-- C10: `perturb` never mutates the input image tensor `X`: every in-place
update targets the coupling or the diagnostic counters, so the state's `X`
after the call — whether it completed or raised — is exactly the `X` at
entry. -/
theorem claim10_X_immutable (cfg : Config) (o : Oracles) (X : Image) :
    ((perturb cfg o X).1).X = X := by
  have hX : (loopFinal cfg o X).X = X := by
    unfold loopFinal
    rw [loopFrom_X, initState_X]
  show ((finalPhase cfg o (normsOf X) (loopFinal cfg o X)).1).X = X
  cases hs : (loopFinal cfg o X).err with
  | some e =>
      rw [finalPhase_errSome cfg o (normsOf X) _ e hs]
      exact hX
  | none =>
      rw [finalPhase_errNone cfg o (normsOf X) _ hs, finalPost_fst_X]
      simp [hX]

end FastWA
